import Mathlib

/-!
Verification development for the SnapKeep document-intelligence core.

The definitions below are a shallow embedding of the TypeScript source:

* the auto-tagging utilities (`detectTags` and its keyword tables),
* the OCR field extractor (`extractStructuredData`),
* the duplicate detector (`jaccardSimilarity`, `fileNameSimilarity`,
  `findDuplicates`),
* the search functions of the application context (`searchFiles`,
  `naturalLanguageSearch`).

Modelling conventions:

* JavaScript strings are modelled as `String`; character-level scanning is
  done on `List Char` (the `data` field).
* JavaScript numbers occurring in similarity scores and parsed amounts are
  modelled as `ℚ`.  The number `NaN` (possible result of `parseFloat`) is
  modelled by `none : Option ℚ`.
* The regular expressions of the source are embedded by explicit matchers.
  A matcher returns the list of all possible `(consumed, rest)` splits in
  the backtracking priority order of the JavaScript regex engine (greedy
  quantifiers produce longer splits first, alternations produce the left
  branch first).  The first element of the list is therefore exactly the
  match the engine commits to.
* `Date` values parsed from `createdAt` strings are modelled at day
  granularity by `JsDate` (year, zero-based month, day); the only date
  comparison performed by the source compares against the first day of a
  month at midnight, which day granularity represents exactly.
* The current clock (`new Date()`) is passed explicitly as a `JsDate`
  parameter.
-/

/-! ## JavaScript character classes and string primitives -/

/-- The character class `\s` of JavaScript regexes, also the set stripped by
`String.prototype.trim`: ASCII whitespace, NBSP, Ogham space mark, the
U+2000 block, line/paragraph separators, narrow/medium spaces, ideographic
space and BOM. -/
def isWsChar (c : Char) : Bool :=
  let n := c.toNat
  n = 32 || n = 9 || n = 10 || n = 11 || n = 12 || n = 13 ||
  n = 160 || n = 5760 || (8192 ≤ n && n ≤ 8202) || n = 8232 ||
  n = 8233 || n = 8239 || n = 8287 || n = 12288 || n = 65279

/-- The character class `\d` of JavaScript regexes. -/
def isDigitChar (c : Char) : Bool :=
  48 ≤ c.toNat && c.toNat ≤ 57

/-- The character class `\w` of JavaScript regexes: ASCII letters, digits
and underscore. -/
def isWordChar (c : Char) : Bool :=
  let n := c.toNat
  (65 ≤ n && n ≤ 90) || (97 ≤ n && n ≤ 122) || (48 ≤ n && n ≤ 57) || n = 95

/-- Lowercasing of a character sequence (`String.prototype.toLowerCase`;
the inputs handled by the source are ASCII, where `Char.toLower` agrees
with the JavaScript function). -/
def lowerStr (l : List Char) : List Char :=
  l.map Char.toLower

/-- Does `l` start with `pat`? -/
def startsWithStr : List Char → List Char → Bool
  | _, [] => true
  | [], _ :: _ => false
  | c :: t, p :: ps => c = p && startsWithStr t ps

/-- `String.prototype.includes` on character lists: `needle` occurs as a
contiguous substring of `hay` (the empty needle always occurs). -/
def containsSub : List Char → List Char → Bool
  | [], needle => needle.isEmpty
  | c :: t, needle => startsWithStr (c :: t) needle || containsSub t needle

/-- `String.prototype.trim`. -/
def jsTrim (l : List Char) : List Char :=
  ((l.dropWhile isWsChar).reverse.dropWhile isWsChar).reverse

/-- Maximal runs of non-whitespace characters.  This models
`String.prototype.split` on the regex `\s+`: that split can additionally
produce empty edge tokens at the borders of the string, but every use in
the source immediately filters tokens by a length bound greater than zero,
so only the maximal runs survive in either reading. -/
def splitWsRuns (l : List Char) : List (List Char) :=
  (l.foldr (fun c acc =>
      if isWsChar c then [] :: acc
      else
        match acc with
        | [] => [[c]]
        | r :: rs => (c :: r) :: rs) []).filter (fun r => !r.isEmpty)

/-- Removal of every comma (`replace(/,/g, "")`). -/
def stripCommas (l : List Char) : List Char :=
  l.filter (fun c => !(c = ','))

/-- Numeric value of a digit sequence. -/
def digitsToNat (l : List Char) : Nat :=
  l.foldl (fun acc c => 10 * acc + (c.toNat - 48)) 0

/-- `parseFloat`: skip leading whitespace, read an optional sign, an
integer part and an optional fractional part; `none` models `NaN` (no
numeric prefix at all).  The exponent syntax of `parseFloat` is omitted:
every string the source passes to `parseFloat` is produced by a capture
group that cannot contain an exponent marker. -/
def jsParseFloat (l : List Char) : Option ℚ :=
  let l1 := l.dropWhile isWsChar
  let sign : ℚ := if l1.head? = some '-' then -1 else 1
  let l2 := if l1.head? = some '-' || l1.head? = some '+' then l1.tail else l1
  let intPart := l2.takeWhile isDigitChar
  let rest := l2.dropWhile isDigitChar
  let fracPart := if rest.head? = some '.' then rest.tail.takeWhile isDigitChar else []
  if intPart.isEmpty && fracPart.isEmpty then none
  else
    some (sign * ((digitsToNat intPart : ℚ) +
      (digitsToNat fracPart : ℚ) / ((10 : ℚ) ^ fracPart.length)))

/-! ## Regex matchers

A matcher maps an input suffix to the list of possible `(consumed, rest)`
splits, ordered by the backtracking priority of the JavaScript engine. -/

/-- All ways a piece of regex can consume a prefix of the input, most
preferred first. -/
def Matcher : Type :=
  List Char → List (List Char × List Char)

/-- Sequential composition of two regex pieces. -/
def mseq (m1 m2 : Matcher) : Matcher :=
  fun l =>
    (m1 l).flatMap (fun p =>
      (m2 p.2).map (fun q => (p.1 ++ q.1, q.2)))

/-- Ordered alternation (the left branch is preferred). -/
def malt (m1 m2 : Matcher) : Matcher :=
  fun l => m1 l ++ m2 l

/-- A literal, matched case-insensitively (all the embedded regexes carry
the `i` flag). -/
def mlit (pat : List Char) : Matcher :=
  fun l =>
    if startsWithStr (lowerStr l) (lowerStr pat) then
      [(l.take pat.length, l.drop pat.length)]
    else []

/-- A single character from a class. -/
def mchar (p : Char → Bool) : Matcher :=
  fun l =>
    match l with
    | [] => []
    | c :: t => if p c then [([c], t)] else []

/-- Greedy `X?`: first the variant that consumes `X`, then the empty one. -/
def mopt (m : Matcher) : Matcher :=
  fun l => m l ++ [([], l)]

/-- Greedy `[p]*`: longest run first, down to the empty run. -/
def mcharStar (p : Char → Bool) : Matcher :=
  fun l =>
    let run := l.takeWhile p
    (List.range (run.length + 1)).map
      (fun k => (l.take (run.length - k), l.drop (run.length - k)))

/-- Greedy `[p]+`: longest run first, down to a single character; fails on
an empty run. -/
def mcharPlus (p : Char → Bool) : Matcher :=
  fun l =>
    let run := l.takeWhile p
    (List.range run.length).map
      (fun k => (l.take (run.length - k), l.drop (run.length - k)))

/-- Exactly `n` characters from a class. -/
def mcharExact (p : Char → Bool) (n : Nat) : Matcher :=
  fun l =>
    let pre := l.take n
    if pre.length = n && pre.all p then [(pre, l.drop n)] else []

/-- Between `lo` and `hi` characters from a class, greedy. -/
def mcharRange (p : Char → Bool) (lo hi : Nat) : Matcher :=
  fun l =>
    (List.range (hi + 1 - lo)).flatMap
      (fun k => mcharExact p (hi - k) l)

/-- Greedy `X*` for a compound piece `X` with a fuel bound, most
iterations first.  An iteration only counts when it consumed at least one
character (every starred piece in the source does), so `length l` fuel is
always enough. -/
def mstarFuel (m : Matcher) : Nat → Matcher
  | 0 => fun l => [([], l)]
  | fuel + 1 => fun l =>
    (m l).flatMap (fun p =>
      if p.2.length < l.length then
        (mstarFuel m fuel p.2).map (fun q => (p.1 ++ q.1, q.2))
      else []) ++ [([], l)]

/-- Greedy `X*` for a compound piece `X`, most iterations first. -/
def mstar (m : Matcher) : Matcher :=
  fun l => mstarFuel m l.length l

/-- The empty regex piece. -/
def mnil : Matcher :=
  fun l => [([], l)]

/-- End-of-input anchor (`$` without the `m` flag). -/
def mEnd : Matcher :=
  fun l => if l.isEmpty then [([], l)] else []

/-- A pattern with one capture group: `pre (cap) post`.  Returns
`(wholeMatch, capture, rest)` triples in backtracking order. -/
def mcap (pre cap post : Matcher) (l : List Char) :
    List (List Char × List Char × List Char) :=
  (pre l).flatMap (fun p =>
    (cap p.2).flatMap (fun q =>
      (post q.2).map (fun r => (p.1 ++ q.1 ++ r.1, q.1, r.2))))

/-- First match of a capture pattern scanning positions left to right
(`String.prototype.match` without the `g` flag); returns
`(wholeMatch, capture, rest)` of the leftmost match. -/
def execFirst (m : List Char → List (List Char × List Char × List Char)) :
    List Char → Option (List Char × List Char × List Char)
  | [] => (m []).head?
  | c :: t =>
    match (m (c :: t)).head? with
    | some r => some r
    | none => execFirst m t

/-- All matches of a capture pattern under the `g` flag: scan left to
right, and continue after the end of each committed match.  `fuel` bounds
the recursion; every pattern the source iterates has a non-empty mandatory
part, so `length + 1` steps always suffice. -/
def execAll (m : List Char → List (List Char × List Char × List Char))
    (fuel : Nat) (l : List Char) : List (List Char × List Char) :=
  match fuel with
  | 0 => []
  | fuel + 1 =>
    match (m l).head? with
    | some (whole, cap, rest) => (whole, cap) :: execAll m fuel rest
    | none =>
      match l with
      | [] => []
      | _ :: t => execAll m fuel t

/-! ## Auto-tagging utilities (autoTag module) -/

/-- The closed tag vocabulary of the source. -/
inductive DocumentTag where
  | receipt
  | invoice
  | bill
  | manual
  | id_card
  | bank_statement
  | certificate
  | contract
  | warranty
  | note
  | photo
  | screenshot
  | other
deriving DecidableEq

/-- The keyword triggers of each tag configuration (`tagConfigs`; the
label and colour fields are presentation data never read by the embedded
functions and are omitted). -/
def keywords : DocumentTag → List String
  | .receipt =>
    ["receipt", "purchase", "bought", "store", "shop",
     "thank you for shopping", "transaction"]
  | .invoice =>
    ["invoice", "bill to", "payment terms", "net 30", "invoice number",
     "inv-"]
  | .bill =>
    ["utility", "bill", "account number", "billing period", "amount due",
     "electric", "gas", "water", "phone"]
  | .manual =>
    ["manual", "instructions", "user guide", "setup", "how to",
     "troubleshooting", "safety"]
  | .id_card =>
    ["license", "identification", "id card", "passport", "dob",
     "date of birth", "expires", "id number"]
  | .bank_statement =>
    ["bank", "statement", "balance", "deposits", "withdrawals", "account",
     "transactions"]
  | .certificate =>
    ["certificate", "certifies", "completed", "awarded", "achievement",
     "diploma", "degree"]
  | .contract =>
    ["contract", "agreement", "terms", "parties", "effective date",
     "signature", "legally binding"]
  | .warranty =>
    ["warranty", "guarantee", "coverage", "defects", "replacement",
     "repair", "warranty period"]
  | .note =>
    ["note", "meeting", "agenda", "action items", "todo", "reminder",
     "memo"]
  | .photo => []
  | .screenshot => ["screenshot"]
  | .other => []

/-- All tag configurations in declaration order (`Object.values(tagConfigs)`). -/
def allTags : List DocumentTag :=
  [.receipt, .invoice, .bill, .manual, .id_card, .bank_statement,
   .certificate, .contract, .warranty, .note, .photo, .screenshot, .other]

/-- The fixed priority list walked by `detectTags`. -/
def tagPriority : List DocumentTag :=
  [.id_card, .bank_statement, .warranty, .certificate, .contract,
   .invoice, .receipt, .bill, .manual, .note]

/-- One tag keyword matches the lowercased text or the lowercased file
name (the per-tag test of the priority walk in `detectTags`). -/
def hasTagKeyword (text fileName : String) (t : DocumentTag) : Bool :=
  (keywords t).any (fun kw =>
    containsSub (lowerStr text.data) kw.data ||
    containsSub (lowerStr fileName.data) kw.data)

/-- The screenshot and photo pushes at the start of `detectTags` (steps 1
and 2 of the classifier); `Array.prototype.includes` is membership. -/
def detectTagsBase (text fileName mimeType : String) : List DocumentTag :=
  let lowerText := lowerStr text.data
  let lowerFileName := lowerStr fileName.data
  let tags1 : List DocumentTag :=
    if containsSub lowerFileName ("screenshot".data) ||
        containsSub lowerFileName ("screen shot".data) then
      [.screenshot]
    else []
  if startsWithStr mimeType.data ("image/".data) &&
      !(decide (DocumentTag.screenshot ∈ tags1)) then
    let hasDocumentKeywords := allTags.any (fun cfg =>
      (keywords cfg).any (fun kw => containsSub lowerText kw.data))
    if !hasDocumentKeywords && lowerText.length < 50 then
      tags1 ++ [.photo]
    else tags1
  else tags1

/-- One step of the priority walk of `detectTags`: append the tag when a
keyword matches and the tag is not already present. -/
def priorityStep (text fileName : String) (acc : List DocumentTag)
    (tagId : DocumentTag) : List DocumentTag :=
  if hasTagKeyword text fileName tagId && !(decide (tagId ∈ acc)) then
    acc ++ [tagId]
  else acc

/-- The priority walk of `detectTags` (step 3). -/
def detectTagsAll (text fileName mimeType : String) : List DocumentTag :=
  tagPriority.foldl (priorityStep text fileName)
    (detectTagsBase text fileName mimeType)

/-- The tag classifier `detectTags(text, fileName, mimeType)`: the pushes
above, then the `other` fallback, then truncation to three tags. -/
def detectTags (text fileName mimeType : String) : List DocumentTag :=
  let tags := detectTagsAll text fileName mimeType
  (if tags.length = 0 then tags ++ [.other] else tags).take 3

/-! ## OCR field extraction (ocrExtractor module) -/

inductive DateType where
  | due_date
  | renewal_date
  | warranty_date
  | issue_date
  | expiry_date
  | general
deriving DecidableEq

structure ExtractedDate where
  type : DateType
  date : String
  originalText : String
deriving DecidableEq

inductive AmountType where
  | total
  | subtotal
  | tax
  | payment
  | general
deriving DecidableEq

structure ExtractedAmount where
  type : AmountType
  amount : Option ℚ
  currency : String
  originalText : String
deriving DecidableEq

structure ExtractedData where
  dates : List ExtractedDate
  amounts : List ExtractedAmount
  fields : List (String × String)
deriving DecidableEq

/-- `\s*` -/
def mwsStar : Matcher := mcharStar isWsChar

/-- `\s+` -/
def mwsPlus : Matcher := mcharPlus isWsChar

/-- `[:\s]*` -/
def mcolonWsStar : Matcher :=
  mcharStar (fun c => c = ':' || isWsChar c)

/-- `[\/\-]` -/
def mdateSep : Matcher :=
  mchar (fun c => c = '/' || c = '-')

/-- The shared date capture group `(\d{1,2}[\/\-]\d{1,2}[\/\-]\d{2,4})`. -/
def mdateToken : Matcher :=
  mseq (mcharRange isDigitChar 1 2)
    (mseq mdateSep
      (mseq (mcharRange isDigitChar 1 2)
        (mseq mdateSep (mcharRange isDigitChar 2 4))))

/-- `due\s*(?:date)?[:\s]*` -/
def mduePre : Matcher :=
  mseq (mlit ("due".data))
    (mseq mwsStar (mseq (mopt (mlit ("date".data))) mcolonWsStar))

/-- `renewal\s*(?:date)?[:\s]*` -/
def mrenewalPre : Matcher :=
  mseq (mlit ("renewal".data))
    (mseq mwsStar (mseq (mopt (mlit ("date".data))) mcolonWsStar))

/-- `warranty\s*(?:until|through|expires?)?[:\s]*` -/
def mwarrantyPre : Matcher :=
  mseq (mlit ("warranty".data))
    (mseq mwsStar
      (mseq
        (mopt (malt (mlit ("until".data))
          (malt (mlit ("through".data))
            (mseq (mlit ("expire".data)) (mopt (mlit ("s".data)))))))
        mcolonWsStar))

/-- `expir(?:y|es|ation)\s*(?:date)?[:\s]*` -/
def mexpiryPre : Matcher :=
  mseq (mlit ("expir".data))
    (mseq (malt (mlit ("y".data)) (malt (mlit ("es".data)) (mlit ("ation".data))))
      (mseq mwsStar (mseq (mopt (mlit ("date".data))) mcolonWsStar)))

/-- `(?:date|dated)[:\s]*` -/
def missuePre : Matcher :=
  mseq (malt (mlit ("date".data)) (mlit ("dated".data))) mcolonWsStar

/-- The five date patterns in iteration order, with their date types. -/
def datePatterns : List (DateType × Matcher) :=
  [(.due_date, mduePre), (.renewal_date, mrenewalPre),
   (.warranty_date, mwarrantyPre), (.expiry_date, mexpiryPre),
   (.issue_date, missuePre)]

/-- `[\$€£]?\s*` -/
def mcurrencyChar (c : Char) : Bool :=
  c = '$' || c = '€' || c = '£'

/-- The shared amount capture group `(\d+(?:,\d{3})*(?:\.\d{2})?)`. -/
def mnumToken : Matcher :=
  mseq (mcharPlus isDigitChar)
    (mseq (mstar (mseq (mlit (",".data)) (mcharExact isDigitChar 3)))
      (mopt (mseq (mlit (".".data)) (mcharExact isDigitChar 2))))

/-- `LABEL[:\s]*[\$€£]?\s*` for the labelled amount patterns. -/
def mamountPre (label : Matcher) : Matcher :=
  mseq label (mseq mcolonWsStar (mseq (mopt (mchar mcurrencyChar)) mwsStar))

/-- The five amount patterns in iteration order, with their amount types. -/
def amountPatterns : List (AmountType × Matcher) :=
  [(.total, mamountPre (mlit ("total".data))),
   (.subtotal, mamountPre (mlit ("subtotal".data))),
   (.tax, mamountPre (mlit ("tax".data))),
   (.payment, mamountPre (malt (mlit ("amount".data)) (mlit ("payment".data)))),
   (.general, mseq (mchar mcurrencyChar) mwsStar)]

/-- `[A-Z0-9\-]` under the `i` flag. -/
def isAlnumHyphen (c : Char) : Bool :=
  let n := c.toNat
  (65 ≤ n && n ≤ 90) || (97 ≤ n && n ≤ 122) || (48 ≤ n && n ≤ 57) || n = 45

/-- `LABEL\s*(?:#|no\.?|number)?[:\s]*([A-Z0-9\-]+)` -/
def mnumberField (label : List Char) :
    List Char → List (List Char × List Char × List Char) :=
  mcap
    (mseq (mlit label)
      (mseq mwsStar
        (mseq
          (mopt (malt (mlit ("#".data))
            (malt (mseq (mlit ("no".data)) (mopt (mlit (".".data))))
              (mlit ("number".data)))))
          mcolonWsStar)))
    (mcharPlus isAlnumHyphen)
    mnil

/-- Lazy `[p]+?`: shortest run first. -/
def mcharPlusLazy (p : Char → Bool) : Matcher :=
  fun l =>
    let run := l.takeWhile p
    (List.range run.length).map
      (fun k => (l.take (k + 1), l.drop (k + 1)))

/-- `[A-Za-z\s&]` -/
def isVendorChar (c : Char) : Bool :=
  let n := c.toNat
  (65 ≤ n && n ≤ 90) || (97 ≤ n && n ≤ 122) || n = 38 || isWsChar c

/-- `warranty[:\s]*(\d+\s*(?:year|month|day)s?)` -/
def mwarrantyPeriodField :
    List Char → List (List Char × List Char × List Char) :=
  mcap (mseq (mlit ("warranty".data)) mcolonWsStar)
    (mseq (mcharPlus isDigitChar)
      (mseq mwsStar
        (mseq
          (malt (mlit ("year".data)) (malt (mlit ("month".data)) (mlit ("day".data))))
          (mopt (mlit ("s".data))))))
    mnil

/-- `(?:from|vendor|seller|company)[:\s]*([A-Za-z\s&]+?)(?:\n|$)` -/
def mvendorField : List Char → List (List Char × List Char × List Char) :=
  mcap
    (mseq
      (malt (mlit ("from".data))
        (malt (mlit ("vendor".data))
          (malt (mlit ("seller".data)) (mlit ("company".data)))))
      mcolonWsStar)
    (mcharPlusLazy isVendorChar)
    (malt (mlit ("\n".data)) mEnd)

/-- The seven named-field patterns in declaration order of the source
record (`Object.entries` preserves it). -/
def fieldPatterns :
    List (String × (List Char → List (List Char × List Char × List Char))) :=
  [("invoiceNumber", mnumberField ("invoice".data)),
   ("orderNumber", mnumberField ("order".data)),
   ("modelNumber", mnumberField ("model".data)),
   ("serialNumber", mnumberField ("serial".data)),
   ("accountNumber", mnumberField ("account".data)),
   ("warrantyPeriod", mwarrantyPeriodField),
   ("vendor", mvendorField)]

/-- The field extractor `extractStructuredData(text)`. -/
def extractStructuredData (text : String) : ExtractedData :=
  let td := text.data
  let fuel := td.length + 1
  let dates := datePatterns.flatMap (fun pat =>
    (execAll (mcap pat.2 mdateToken mnil) fuel td).map (fun m =>
      { type := pat.1, date := String.mk m.2, originalText := String.mk m.1 }))
  let amounts := amountPatterns.flatMap (fun pat =>
    (execAll (mcap pat.2 mnumToken mnil) fuel td).map (fun m =>
      { type := pat.1, amount := jsParseFloat (stripCommas m.2),
        currency := "USD", originalText := String.mk m.1 }))
  let fields := fieldPatterns.filterMap (fun pat =>
    (execFirst pat.2 td).map (fun m => (pat.1, String.mk (jsTrim m.2.1))))
  { dates := dates, amounts := amounts, fields := fields }

/-! ## Duplicate detection (duplicateDetector module) -/

/-- The corpus view passed to `findDuplicates`. -/
structure DupFile where
  id : String
  name : String
  extractedText : String
deriving DecidableEq

inductive MatchType where
  | exact
  | high
  | medium
  | low
deriving DecidableEq

structure MatchedFileRef where
  id : String
  name : String
deriving DecidableEq

structure SimilarityResult where
  score : ℚ
  matchedFile : MatchedFileRef
  matchType : MatchType
deriving DecidableEq

/-- The token set used by the Jaccard index: lowercase, split on `\s+`,
keep words longer than 2 characters, collect into a `Set`. -/
def tokenSet (text : String) : Finset (List Char) :=
  ((splitWsRuns (lowerStr text.data)).filter (fun w => 2 < w.length)).toFinset

/-- `jaccardSimilarity(text1, text2)`. -/
def jaccardSimilarity (text1 text2 : String) : ℚ :=
  let words1 := tokenSet text1
  let words2 := tokenSet text2
  if words1.card = 0 ∧ words2.card = 0 then 0
  else ((words1 ∩ words2).card : ℚ) / ((words1 ∪ words2).card : ℚ)

/-- `[^a-z0-9]` complement after lowercasing (`replace(/[^a-z0-9]/g, "")`). -/
def isLowerAlnum (c : Char) : Bool :=
  let n := c.toNat
  (97 ≤ n && n ≤ 122) || (48 ≤ n && n ≤ 57)

/-- Name normalisation of `fileNameSimilarity`. -/
def cleanName (name : String) : List Char :=
  (lowerStr name.data).filter isLowerAlnum

/-- Index-aligned equal characters over the common prefix length (the
character loop of `fileNameSimilarity`). -/
def countPosMatches : List Char → List Char → Nat
  | a :: as, b :: bs => (if a = b then 1 else 0) + countPosMatches as bs
  | _, _ => 0

/-- `fileNameSimilarity(name1, name2)`. -/
def fileNameSimilarity (name1 name2 : String) : ℚ :=
  let clean1 := cleanName name1
  let clean2 := cleanName name2
  if clean1 = clean2 then 1
  else if containsSub clean1 clean2 || containsSub clean2 clean1 then 8 / 10
  else
    let maxLen := max clean1.length clean2.length
    if maxLen = 0 then 0
    else (countPosMatches clean1 clean2 : ℚ) / (maxLen : ℚ)

/-- The weighted composite score of `findDuplicates`:
`textSimilarity * 0.7 + nameSimilarity * 0.3`. -/
def compositeScore (newFileText newFileName : String) (file : DupFile) : ℚ :=
  jaccardSimilarity newFileText file.extractedText * (7 / 10) +
    fileNameSimilarity newFileName file.name * (3 / 10)

/-- The threshold ladder assigning a match type to a score. -/
def matchTypeOf (score : ℚ) : MatchType :=
  if 9 / 10 ≤ score then .exact
  else if 7 / 10 ≤ score then .high
  else if 1 / 2 ≤ score then .medium
  else .low

/-- Descending-score order used by `results.sort((a, b) => b.score - a.score)`. -/
def scoreGe (a b : SimilarityResult) : Prop :=
  b.score ≤ a.score

instance : DecidableRel scoreGe :=
  fun a b => inferInstanceAs (Decidable (b.score ≤ a.score))

instance : IsTotal SimilarityResult scoreGe :=
  ⟨fun a b => le_total b.score a.score⟩

instance : IsTrans SimilarityResult scoreGe :=
  ⟨fun _ _ _ h1 h2 => le_trans h2 h1⟩

/-- `findDuplicates(newFileText, newFileName, existingFiles)`. -/
def findDuplicates (newFileText newFileName : String)
    (existingFiles : List DupFile) : List SimilarityResult :=
  let results := existingFiles.filterMap (fun file =>
    let score := compositeScore newFileText newFileName file
    let matchType := matchTypeOf score
    if (1 / 2 : ℚ) ≤ score then
      some { score := score, matchedFile := { id := file.id, name := file.name },
             matchType := matchType }
    else none)
  List.insertionSort scoreGe results

/-! ## Search (AppContext) -/

inductive FieldKind where
  | date
  | amount
  | text
  | number
deriving DecidableEq

structure ExtractedField where
  key : String
  value : String
  type : FieldKind
deriving DecidableEq

/-- A calendar date at day granularity: the result of parsing a
`createdAt` string, or the current clock. `month` is zero-based as in
JavaScript. -/
structure JsDate where
  year : Int
  month : Int
  day : Int
deriving DecidableEq

/-- The constructor `new Date(year, month, day)`, which normalises an
out-of-range month into the year. -/
def jsDateOfYMD (y m d : Int) : JsDate :=
  { year := y + m.fdiv 12, month := m.fmod 12, day := d }

/-- Timestamp comparison `d1 <= d2` at day granularity. -/
def dateLe (a b : JsDate) : Bool :=
  a.year < b.year ||
    (a.year = b.year &&
      (a.month < b.month || (a.month = b.month && a.day ≤ b.day)))

/-- The stored document view read by the search functions.  The remaining
fields of the source interface (mime type, size, thumbnail, importance,
metadata, timestamps other than `createdAt`) are never read by them and
are omitted.  `tags` holds the string values of the document tags. -/
structure StoredFile where
  id : String
  name : String
  extractedText : String
  tags : List String
  extractedFields : List ExtractedField
  createdAt : JsDate
deriving DecidableEq

/-- The per-document predicate of `searchFiles`.  The truthiness guard
`file.extractedText && ...` of the source is the emptiness test on a
string; the guards on `tags` and `extractedFields` always pass (arrays are
truthy) and disappear. -/
def searchFilesCond (lowerQuery : List Char) (file : StoredFile) : Bool :=
  containsSub (lowerStr file.name.data) lowerQuery ||
  (!file.extractedText.data.isEmpty &&
    containsSub (lowerStr file.extractedText.data) lowerQuery) ||
  file.tags.any (fun tag => containsSub (lowerStr tag.data) lowerQuery) ||
  file.extractedFields.any (fun field =>
    containsSub (lowerStr field.value.data) lowerQuery ||
    containsSub (lowerStr field.key.data) lowerQuery)

/-- Plain substring search `searchFiles(query)` over a corpus snapshot. -/
def searchFiles (query : String) (files : List StoredFile) : List StoredFile :=
  if (jsTrim query.data).isEmpty then files
  else files.filter (searchFilesCond (lowerStr query.data))

/-- Does the pattern match anywhere in the input (`RegExp.prototype.test`,
or the success of `String.prototype.match`)? -/
def scanMatch (m : Matcher) : List Char → Bool
  | [] => !(m []).isEmpty
  | c :: t => !(m (c :: t)).isEmpty || scanMatch m t

/-- `last\s+month` -/
def mlastMonthPat : Matcher :=
  mseq (mlit ("last".data)) (mseq mwsPlus (mlit ("month".data)))

/-- `this\s+year|in\s+2024` -/
def mthisYearPat : Matcher :=
  malt (mseq (mlit ("this".data)) (mseq mwsPlus (mlit ("year".data))))
    (mseq (mlit ("in".data)) (mseq mwsPlus (mlit ("2024".data))))

/-- `in\s+(\d{4})`, with its year capture. -/
def minYearPat : List Char → List (List Char × List Char × List Char) :=
  mcap (mseq (mlit ("in".data)) mwsPlus) (mcharExact isDigitChar 4) mnil

/-- The eight tag-intent patterns of `naturalLanguageSearch`, in iteration
order, with the tag value each maps to. -/
def nlTagPatterns : List (Matcher × String) :=
  [(mseq (mlit ("receipt".data)) (mopt (mlit ("s".data))), "receipt"),
   (mseq (mlit ("invoice".data)) (mopt (mlit ("s".data))), "invoice"),
   (mseq (mlit ("bill".data)) (mopt (mlit ("s".data))), "bill"),
   (mseq (mlit ("warrant".data)) (malt (mlit ("y".data)) (mlit ("ies".data))),
    "warranty"),
   (malt (mseq (mlit ("contract".data)) (mopt (mlit ("s".data))))
      (mseq (mlit ("agreement".data)) (mopt (mlit ("s".data)))), "contract"),
   (mseq (mlit ("certificate".data)) (mopt (mlit ("s".data))), "certificate"),
   (malt (mseq (mlit ("id".data)) (mseq mwsStar
        (mseq (mlit ("card".data)) (mopt (mlit ("s".data))))))
      (mlit ("identification".data)), "id_card"),
   (mseq (mlit ("bank".data)) (mseq mwsStar
      (mseq (mlit ("statement".data)) (mopt (mlit ("s".data))))), "bank_statement")]

/-- `["']` -/
def isQuoteChar (c : Char) : Bool :=
  c = '"' || c.toNat = 39

/-- `(?:word|containing|with)\s+["']?(\w+)["']?`, with its token capture. -/
def mwordPat : List Char → List (List Char × List Char × List Char) :=
  mcap
    (mseq (malt (mlit ("word".data))
        (malt (mlit ("containing".data)) (mlit ("with".data))))
      (mseq mwsPlus (mopt (mchar isQuoteChar))))
    (mcharPlus isWordChar)
    (mopt (mchar isQuoteChar))

/-- The cumulative filter chain of `naturalLanguageSearch`: the three time
patterns, then the eight tag patterns, then the literal-word pattern. -/
def nlsFiltered (query : String) (files : List StoredFile) (now : JsDate) :
    List StoredFile :=
  let lowerQuery := lowerStr query.data
  let r1 :=
    if scanMatch mlastMonthPat lowerQuery then
      files.filter (fun f =>
        dateLe (jsDateOfYMD now.year (now.month - 1) 1) f.createdAt)
    else files
  let r2 :=
    if scanMatch mthisYearPat lowerQuery then
      r1.filter (fun f => f.createdAt.year == now.year)
    else r1
  let r3 :=
    match execFirst minYearPat lowerQuery with
    | some m => r2.filter (fun f => f.createdAt.year == (digitsToNat m.2.1 : Int))
    | none => r2
  let r4 := nlTagPatterns.foldl (fun acc pat =>
    if scanMatch pat.1 lowerQuery then
      acc.filter (fun f => decide (pat.2 ∈ f.tags))
    else acc) r3
  match execFirst mwordPat lowerQuery with
  | some m =>
    r4.filter (fun f =>
      !f.extractedText.data.isEmpty &&
        containsSub (lowerStr f.extractedText.data) (lowerStr m.2.1))
  | none => r4

/-- `naturalLanguageSearch(query)`: the filter chain, with the fallback to
plain substring search when the chain did not narrow the corpus. -/
def naturalLanguageSearch (query : String) (files : List StoredFile)
    (now : JsDate) : List StoredFile :=
  let results := nlsFiltered query files now
  if results.length = files.length then searchFiles query files else results

/-! ## Concrete documents and corpora used by the claim instances -/

def c10Doc : StoredFile :=
  { id := "1", name := "a", extractedText := "", tags := [],
    extractedFields := [], createdAt := ⟨2024, 0, 1⟩ }

/-- The predicate of the substring-search correctness claim, phrased as
the specification states it: the lowercased query occurs in the document
name, in the raw extracted text, in some tag, or in some extracted-field
value or key (all comparisons after lowercasing). -/
def searchMatchSpec (query : String) (d : StoredFile) : Prop :=
  containsSub (lowerStr d.name.data) (lowerStr query.data) = true ∨
  containsSub (lowerStr d.extractedText.data) (lowerStr query.data) = true ∨
  (∃ tag ∈ d.tags, containsSub (lowerStr tag.data) (lowerStr query.data) = true) ∨
  (∃ f ∈ d.extractedFields,
    containsSub (lowerStr f.value.data) (lowerStr query.data) = true ∨
    containsSub (lowerStr f.key.data) (lowerStr query.data) = true)

def c5Doc : StoredFile :=
  { id := "1", name := "a", extractedText := "", tags := [],
    extractedFields := [], createdAt := ⟨2024, 0, 1⟩ }

def c5TaxDoc : StoredFile :=
  { id := "1", name := "tax.pdf", extractedText := "", tags := [],
    extractedFields := [], createdAt := ⟨2024, 0, 1⟩ }

/-- The example text of the extraction scenario. -/
def c6Text : String :=
  "Invoice #INV-2024-001\nDue Date: 12/15/2024\nTotal: $1,650.00"

/-- The clock of the temporal-query scenario: November 15, 2024 (month is
zero-based). -/
def c7Now : JsDate := ⟨2024, 10, 15⟩

/-- A receipt-tagged document of the temporal-query scenario. -/
def c7Doc (nm : String) (cd : JsDate) : StoredFile :=
  { id := nm, name := nm, extractedText := "", tags := ["receipt"],
    extractedFields := [], createdAt := cd }

/-- Three receipts created this month (November 2024) and two created last
month (October 2024). -/
def c7Corpus : List StoredFile :=
  [c7Doc "a" ⟨2024, 10, 3⟩, c7Doc "b" ⟨2024, 10, 10⟩,
   c7Doc "c" ⟨2024, 10, 15⟩, c7Doc "d" ⟨2024, 9, 5⟩, c7Doc "e" ⟨2024, 9, 20⟩]

/-! ## Helper lemmas: no pattern matches inside pure whitespace -/

theorem toLower_eq_of_ws {c : Char} (h : isWsChar c = true) : c.toLower = c := by
  have hn : ¬(c.toNat ≥ 65 ∧ c.toNat ≤ 90) := by
    simp only [isWsChar, Bool.or_eq_true, Bool.and_eq_true, decide_eq_true_eq] at h
    omega
  simp [Char.toLower, hn]

theorem lowerStr_allWs {l : List Char} (h : ∀ c ∈ l, isWsChar c = true) :
    ∀ c ∈ lowerStr l, isWsChar c = true := by
  intro c hc
  simp only [lowerStr, List.mem_map] at hc
  obtain ⟨d, hd, rfl⟩ := hc
  rw [toLower_eq_of_ws (h d hd)]
  exact h d hd

theorem mlit_eq_nil_ws {p : Char} {ps l : List Char}
    (hp : isWsChar p.toLower = false) (hl : ∀ c ∈ l, isWsChar c = true) :
    mlit (p :: ps) l = [] := by
  cases l with
  | nil => simp [mlit, lowerStr, startsWithStr]
  | cons c t =>
    have hc : isWsChar c = true := hl c (by simp)
    have hne : ¬(c.toLower = p.toLower) := by
      intro he
      rw [toLower_eq_of_ws hc] at he
      rw [he] at hc
      rw [hc] at hp
      exact Bool.false_ne_true hp.symm
    simp [mlit, lowerStr, startsWithStr, hne]

theorem mseq_eq_nil {m1 m2 : Matcher} {l : List Char} (h : m1 l = []) :
    mseq m1 m2 l = [] := by
  simp [mseq, h]

theorem malt_eq_nil {m1 m2 : Matcher} {l : List Char} (h1 : m1 l = [])
    (h2 : m2 l = []) : malt m1 m2 l = [] := by
  simp [malt, h1, h2]

theorem mcap_eq_nil {pre cap post : Matcher} {l : List Char}
    (h : pre l = []) : mcap pre cap post l = [] := by
  simp [mcap, h]

theorem scanMatch_eq_false {m : Matcher}
    (hm : ∀ s, (∀ c ∈ s, isWsChar c = true) → m s = []) :
    ∀ {l : List Char}, (∀ c ∈ l, isWsChar c = true) → scanMatch m l = false := by
  intro l
  induction l with
  | nil =>
    intro h
    simp [scanMatch, hm [] (by simp)]
  | cons c t ih =>
    intro h
    simp [scanMatch, hm (c :: t) h,
      ih (fun d hd => h d (List.mem_cons_of_mem c hd))]

theorem execFirst_eq_none
    {m : List Char → List (List Char × List Char × List Char)}
    (hm : ∀ s, (∀ c ∈ s, isWsChar c = true) → m s = []) :
    ∀ {l : List Char}, (∀ c ∈ l, isWsChar c = true) → execFirst m l = none := by
  intro l
  induction l with
  | nil =>
    intro h
    simp [execFirst, hm [] (by simp)]
  | cons c t ih =>
    intro h
    simp [execFirst, hm (c :: t) h,
      ih (fun d hd => h d (List.mem_cons_of_mem c hd))]

theorem mlastMonthPat_ws {l : List Char} (h : ∀ c ∈ l, isWsChar c = true) :
    mlastMonthPat l = [] :=
  mseq_eq_nil (mlit_eq_nil_ws (by decide) h)

theorem mthisYearPat_ws {l : List Char} (h : ∀ c ∈ l, isWsChar c = true) :
    mthisYearPat l = [] :=
  malt_eq_nil (mseq_eq_nil (mlit_eq_nil_ws (by decide) h))
    (mseq_eq_nil (mlit_eq_nil_ws (by decide) h))

theorem minYearPat_ws {l : List Char} (h : ∀ c ∈ l, isWsChar c = true) :
    minYearPat l = [] :=
  mcap_eq_nil (mseq_eq_nil (mlit_eq_nil_ws (by decide) h))

theorem mwordPat_ws {l : List Char} (h : ∀ c ∈ l, isWsChar c = true) :
    mwordPat l = [] :=
  mcap_eq_nil (mseq_eq_nil
    (malt_eq_nil (mlit_eq_nil_ws (by decide) h)
      (malt_eq_nil (mlit_eq_nil_ws (by decide) h)
        (mlit_eq_nil_ws (by decide) h))))

/-! ## C1: the query fallback law -/

/-- C1: for every query string, corpus and clock, if the natural-language
filter chain of `naturalLanguageSearch` leaves the result set equal in
size to the corpus, then `naturalLanguageSearch` returns exactly
`searchFiles` applied to the same query and corpus. -/
theorem C1_query_fallback_law (query : String) (files : List StoredFile)
    (now : JsDate)
    (h : (nlsFiltered query files now).length = files.length) :
    naturalLanguageSearch query files now = searchFiles query files := by
  simp [naturalLanguageSearch, h]

/-- Witness for C1 at a concrete query and corpus. -/
theorem C1_query_fallback_law_witness :
    (nlsFiltered "zzz" [] ⟨2024, 10, 15⟩).length = ([] : List StoredFile).length ∧
    naturalLanguageSearch "zzz" [] ⟨2024, 10, 15⟩ = searchFiles "zzz" [] :=
  ⟨by decide, C1_query_fallback_law "zzz" [] ⟨2024, 10, 15⟩ (by decide)⟩

/-! ## C10: empty and whitespace-only queries return the whole corpus -/

/-- C10: for every corpus, calling `searchFiles` (and consequently
`naturalLanguageSearch`) with a query that is empty or consists only of
whitespace returns the entire corpus unchanged, in its original order. -/
theorem C10_ws_query_returns_corpus (query : String) (files : List StoredFile)
    (now : JsDate) (hq : ∀ c ∈ query.data, isWsChar c = true) :
    searchFiles query files = files ∧
    naturalLanguageSearch query files now = files := by
  have htrim : jsTrim query.data = [] := by
    simp [jsTrim, List.dropWhile_eq_nil_iff.mpr hq]
  have hsearch : searchFiles query files = files := by
    simp [searchFiles, htrim]
  refine ⟨hsearch, ?_⟩
  have hlq : ∀ c ∈ lowerStr query.data, isWsChar c = true := lowerStr_allWs hq
  have h1 : scanMatch mlastMonthPat (lowerStr query.data) = false :=
    scanMatch_eq_false (fun _ hs => mlastMonthPat_ws hs) hlq
  have h2 : scanMatch mthisYearPat (lowerStr query.data) = false :=
    scanMatch_eq_false (fun _ hs => mthisYearPat_ws hs) hlq
  have h3 : execFirst minYearPat (lowerStr query.data) = none :=
    execFirst_eq_none (fun _ hs => minYearPat_ws hs) hlq
  have ht1 : scanMatch (mseq (mlit ("receipt".data)) (mopt (mlit ("s".data))))
      (lowerStr query.data) = false :=
    scanMatch_eq_false
      (fun _ hs => mseq_eq_nil (mlit_eq_nil_ws (by decide) hs)) hlq
  have ht2 : scanMatch (mseq (mlit ("invoice".data)) (mopt (mlit ("s".data))))
      (lowerStr query.data) = false :=
    scanMatch_eq_false
      (fun _ hs => mseq_eq_nil (mlit_eq_nil_ws (by decide) hs)) hlq
  have ht3 : scanMatch (mseq (mlit ("bill".data)) (mopt (mlit ("s".data))))
      (lowerStr query.data) = false :=
    scanMatch_eq_false
      (fun _ hs => mseq_eq_nil (mlit_eq_nil_ws (by decide) hs)) hlq
  have ht4 : scanMatch
      (mseq (mlit ("warrant".data)) (malt (mlit ("y".data)) (mlit ("ies".data))))
      (lowerStr query.data) = false :=
    scanMatch_eq_false
      (fun _ hs => mseq_eq_nil (mlit_eq_nil_ws (by decide) hs)) hlq
  have ht5 : scanMatch
      (malt (mseq (mlit ("contract".data)) (mopt (mlit ("s".data))))
        (mseq (mlit ("agreement".data)) (mopt (mlit ("s".data)))))
      (lowerStr query.data) = false :=
    scanMatch_eq_false
      (fun _ hs => malt_eq_nil (mseq_eq_nil (mlit_eq_nil_ws (by decide) hs))
        (mseq_eq_nil (mlit_eq_nil_ws (by decide) hs))) hlq
  have ht6 : scanMatch (mseq (mlit ("certificate".data)) (mopt (mlit ("s".data))))
      (lowerStr query.data) = false :=
    scanMatch_eq_false
      (fun _ hs => mseq_eq_nil (mlit_eq_nil_ws (by decide) hs)) hlq
  have ht7 : scanMatch
      (malt (mseq (mlit ("id".data)) (mseq mwsStar
          (mseq (mlit ("card".data)) (mopt (mlit ("s".data))))))
        (mlit ("identification".data)))
      (lowerStr query.data) = false :=
    scanMatch_eq_false
      (fun _ hs => malt_eq_nil (mseq_eq_nil (mlit_eq_nil_ws (by decide) hs))
        (mlit_eq_nil_ws (by decide) hs)) hlq
  have ht8 : scanMatch
      (mseq (mlit ("bank".data)) (mseq mwsStar
        (mseq (mlit ("statement".data)) (mopt (mlit ("s".data))))))
      (lowerStr query.data) = false :=
    scanMatch_eq_false
      (fun _ hs => mseq_eq_nil (mlit_eq_nil_ws (by decide) hs)) hlq
  have hword : execFirst mwordPat (lowerStr query.data) = none :=
    execFirst_eq_none (fun _ hs => mwordPat_ws hs) hlq
  have hfilt : nlsFiltered query files now = files := by
    simp only [nlsFiltered, nlTagPatterns, List.foldl_cons, List.foldl_nil,
      h1, h2, h3, ht1, ht2, ht3, ht4, ht5, ht6, ht7, ht8, hword]
    simp
  simp [naturalLanguageSearch, hfilt, hsearch]


/-- Witness for C10 at a concrete whitespace query and corpus. -/
theorem C10_ws_query_returns_corpus_witness :
    (∀ c ∈ (" ".data), isWsChar c = true) ∧
    searchFiles " " [c10Doc] = [c10Doc] ∧
    naturalLanguageSearch " " [c10Doc] ⟨2024, 10, 15⟩ = [c10Doc] :=
  ⟨by decide,
    (C10_ws_query_returns_corpus " " [c10Doc] ⟨2024, 10, 15⟩ (by decide)).1,
    (C10_ws_query_returns_corpus " " [c10Doc] ⟨2024, 10, 15⟩ (by decide)).2⟩

/-! ## Helper lemmas for the tag classifier -/

theorem detectTagsBase_cases (text fileName mimeType : String) :
    detectTagsBase text fileName mimeType = [] ∨
    detectTagsBase text fileName mimeType = [.screenshot] ∨
    detectTagsBase text fileName mimeType = [.photo] := by
  simp only [detectTagsBase]
  split_ifs <;> simp_all

theorem foldl_priorityStep (text fileName : String) :
    ∀ (L : List DocumentTag), L.Nodup → ∀ acc : List DocumentTag,
      (∀ t ∈ L, t ∉ acc) →
      L.foldl (priorityStep text fileName) acc =
        acc ++ L.filter (hasTagKeyword text fileName) := by
  intro L
  induction L with
  | nil =>
    intro _ acc _
    simp
  | cons hd tl ih =>
    intro hnodup acc hdisj
    have hhd : hd ∉ acc := hdisj hd (List.mem_cons_self hd tl)
    have hnd := List.nodup_cons.mp hnodup
    rw [List.foldl_cons]
    by_cases hk : hasTagKeyword text fileName hd = true
    · have hstep : priorityStep text fileName acc hd = acc ++ [hd] := by
        simp [priorityStep, hk, hhd]
      rw [hstep, ih hnd.2 (acc ++ [hd]) ?_]
      · rw [List.filter_cons_of_pos hk]
        simp
      · intro t ht
        simp only [List.mem_append, List.mem_singleton]
        rintro (h | rfl)
        · exact hdisj t (List.mem_cons_of_mem hd ht) h
        · exact hnd.1 ht
    · have hk' : hasTagKeyword text fileName hd = false :=
        Bool.eq_false_iff.mpr hk
      have hstep : priorityStep text fileName acc hd = acc := by
        simp [priorityStep, hk']
      rw [hstep, ih hnd.2 acc (fun t ht => hdisj t (List.mem_cons_of_mem hd ht)),
        List.filter_cons_of_neg (by simp [hk'])]

theorem detectTagsAll_eq (text fileName mimeType : String) :
    detectTagsAll text fileName mimeType =
      detectTagsBase text fileName mimeType ++
        tagPriority.filter (hasTagKeyword text fileName) := by
  unfold detectTagsAll
  apply foldl_priorityStep
  · decide
  · intro t ht
    rcases detectTagsBase_cases text fileName mimeType with h | h | h <;> rw [h]
    · simp
    · fin_cases ht <;> decide
    · fin_cases ht <;> decide

/-! ## C2: tag classifier bound -/

/-- C2: for all text, file name and MIME type inputs, `detectTags` returns
between 1 and 3 tags, all drawn from the fixed thirteen-tag vocabulary
(`allTags`); the list is never empty. -/
theorem C2_detectTags_bound (text fileName mimeType : String) :
    1 ≤ (detectTags text fileName mimeType).length ∧
    (detectTags text fileName mimeType).length ≤ 3 ∧
    ∀ t ∈ detectTags text fileName mimeType, t ∈ allTags := by
  have hmem : ∀ t : DocumentTag, t ∈ allTags := by
    intro t
    cases t <;> decide
  refine ⟨?_, ?_, fun t _ => hmem t⟩
  · simp only [detectTags]
    by_cases h : (detectTagsAll text fileName mimeType).length = 0
    · rw [if_pos h]
      rw [List.length_eq_zero.mp h]
      decide
    · rw [if_neg h]
      have h1 : 1 ≤ (detectTagsAll text fileName mimeType).length :=
        Nat.pos_of_ne_zero h
      simp only [List.length_take]
      omega
  · simp only [detectTags]
    split_ifs <;> simp only [List.length_take] <;> omega

/-- Witness for C2 at a concrete input (the `other` fallback). -/
theorem C2_detectTags_bound_witness : DocumentTag.other ∈ allTags :=
  (C2_detectTags_bound "" "" "").2.2 DocumentTag.other (by decide)

/-! ## C8: the priority walk fills the list in priority order -/

/-- C8: for every input, the priority tags held in the returned tag list
appear in the fixed priority order (the returned list restricted to
members of `tagPriority` is a sublist of `tagPriority`), and truncation to
three tags only drops lowest-priority matched tags: a matched priority tag
missing from the output ranks strictly after every priority tag present. -/
theorem C8_priority_order (text fileName mimeType : String) :
    ((detectTags text fileName mimeType).filter
      (fun t => decide (t ∈ tagPriority))).Sublist tagPriority ∧
    ∀ t ∈ tagPriority, hasTagKeyword text fileName t = true →
      t ∉ detectTags text fileName mimeType →
      ∀ s ∈ detectTags text fileName mimeType, s ∈ tagPriority →
        tagPriority.indexOf s < tagPriority.indexOf t := by
  have hall := detectTagsAll_eq text fileName mimeType
  have hBdisj : ∀ x ∈ detectTagsBase text fileName mimeType, x ∉ tagPriority := by
    intro x hx
    rcases detectTagsBase_cases text fileName mimeType with hb | hb | hb <;>
      rw [hb] at hx <;> simp at hx
    · rw [hx]; decide
    · rw [hx]; decide
  have hBlen : (detectTagsBase text fileName mimeType).length ≤ 3 := by
    rcases detectTagsBase_cases text fileName mimeType with hb | hb | hb <;>
      rw [hb] <;> decide
  by_cases hz : (detectTagsAll text fileName mimeType).length = 0
  · have hout : detectTags text fileName mimeType = [.other] := by
      simp only [detectTags, if_pos hz]
      rw [List.length_eq_zero.mp hz]
      decide
    constructor
    · rw [hout]
      decide
    · intro t ht hk _ s _ _
      exfalso
      have htA : t ∈ detectTagsAll text fileName mimeType := by
        rw [hall]
        exact List.mem_append_right _ (List.mem_filter.mpr ⟨ht, hk⟩)
      rw [List.length_eq_zero.mp hz] at htA
      simp at htA
  · have hout : detectTags text fileName mimeType =
        detectTagsBase text fileName mimeType ++
          (tagPriority.filter (hasTagKeyword text fileName)).take
            (3 - (detectTagsBase text fileName mimeType).length) := by
      simp only [detectTags, if_neg hz]
      rw [hall, List.take_append_eq_append_take,
        List.take_of_length_le hBlen]
    have hFsub : ((tagPriority.filter (hasTagKeyword text fileName)).take
        (3 - (detectTagsBase text fileName mimeType).length)).Sublist
          (tagPriority.filter (hasTagKeyword text fileName)) :=
      List.take_sublist _ _
    have hB0 : (detectTagsBase text fileName mimeType).filter
        (fun t => decide (t ∈ tagPriority)) = [] :=
      List.filter_eq_nil_iff.mpr (by
        intro a ha
        simp only [decide_eq_true_eq]
        exact hBdisj a ha)
    have hself : ((tagPriority.filter (hasTagKeyword text fileName)).take
        (3 - (detectTagsBase text fileName mimeType).length)).filter
          (fun t => decide (t ∈ tagPriority)) =
        (tagPriority.filter (hasTagKeyword text fileName)).take
          (3 - (detectTagsBase text fileName mimeType).length) :=
      List.filter_eq_self.mpr (by
        intro a ha
        simp only [decide_eq_true_eq]
        exact (List.mem_filter.mp (hFsub.mem ha)).1)
    constructor
    · rw [hout, List.filter_append, hB0, List.nil_append, hself]
      exact hFsub.trans (List.filter_sublist tagPriority)
    · intro t ht hk hnt s hsout hs
      have htF : t ∈ tagPriority.filter (hasTagKeyword text fileName) :=
        List.mem_filter.mpr ⟨ht, hk⟩
      rw [hout] at hnt hsout
      have htTake : t ∉ (tagPriority.filter (hasTagKeyword text fileName)).take
          (3 - (detectTagsBase text fileName mimeType).length) := by
        intro hc
        exact hnt (List.mem_append_right _ hc)
      have htDrop : t ∈ (tagPriority.filter (hasTagKeyword text fileName)).drop
          (3 - (detectTagsBase text fileName mimeType).length) := by
        rcases List.mem_append.mp
            ((List.take_append_drop
              (3 - (detectTagsBase text fileName mimeType).length)
              (tagPriority.filter (hasTagKeyword text fileName))) ▸ htF)
          with h | h
        · exact absurd h htTake
        · exact h
      have hsTake : s ∈ (tagPriority.filter (hasTagKeyword text fileName)).take
          (3 - (detectTagsBase text fileName mimeType).length) := by
        rcases List.mem_append.mp hsout with h | h
        · exact absurd hs (hBdisj s h)
        · exact h
      have hPairP : tagPriority.Pairwise
          (fun a b => tagPriority.indexOf a < tagPriority.indexOf b) := by
        decide
      have hPairF := hPairP.filter (hasTagKeyword text fileName)
      rw [← List.take_append_drop
        (3 - (detectTagsBase text fileName mimeType).length)
        (tagPriority.filter (hasTagKeyword text fileName))] at hPairF
      exact (List.pairwise_append.mp hPairF).2.2 s hsTake t htDrop

/-- Witness for C8 at a concrete input: four priority tags match, the
fourth (certificate) is truncated away and ranks after the kept id-card
tag. -/
theorem C8_priority_order_witness :
    tagPriority.indexOf DocumentTag.id_card <
      tagPriority.indexOf DocumentTag.certificate :=
  (C8_priority_order "passport deposits guarantee diploma" "f"
      "application/pdf").2
    DocumentTag.certificate (by decide) (by decide) (by decide)
    DocumentTag.id_card (by decide) (by decide)

/-! ## Helper lemmas for the similarity engine -/

theorem matchTypeOf_exact_iff (s : ℚ) :
    matchTypeOf s = .exact ↔ 9 / 10 ≤ s := by
  unfold matchTypeOf
  split_ifs <;> simp_all

theorem matchTypeOf_high_iff (s : ℚ) :
    matchTypeOf s = .high ↔ 7 / 10 ≤ s ∧ s < 9 / 10 := by
  unfold matchTypeOf
  split_ifs with h1 h2 <;> simp_all

theorem matchTypeOf_medium_iff (s : ℚ) :
    matchTypeOf s = .medium ↔ 1 / 2 ≤ s ∧ s < 7 / 10 := by
  unfold matchTypeOf
  split_ifs with h1 h2 h3 <;> simp_all <;> intro <;> linarith

theorem mem_findDuplicates {newFileText newFileName : String}
    {corpus : List DupFile} {r : SimilarityResult} :
    r ∈ findDuplicates newFileText newFileName corpus ↔
      ∃ file ∈ corpus,
        (1 / 2 : ℚ) ≤ compositeScore newFileText newFileName file ∧
        r = { score := compositeScore newFileText newFileName file,
              matchedFile := { id := file.id, name := file.name },
              matchType :=
                matchTypeOf (compositeScore newFileText newFileName file) } := by
  simp only [findDuplicates, (List.perm_insertionSort scoreGe _).mem_iff,
    List.mem_filterMap]
  constructor
  · rintro ⟨file, hf, he⟩
    by_cases hsc : (1 / 2 : ℚ) ≤ compositeScore newFileText newFileName file
    · rw [if_pos hsc] at he
      exact ⟨file, hf, hsc, (Option.some.inj he).symm⟩
    · rw [if_neg hsc] at he
      exact absurd he (by simp)
  · rintro ⟨file, hf, hsc, rfl⟩
    exact ⟨file, hf, by rw [if_pos hsc]⟩

theorem jaccard_unit (t1 t2 : String) :
    0 ≤ jaccardSimilarity t1 t2 ∧ jaccardSimilarity t1 t2 ≤ 1 := by
  simp only [jaccardSimilarity]
  split_ifs with h
  · norm_num
  · have hsub : (tokenSet t1 ∩ tokenSet t2).card ≤ (tokenSet t1 ∪ tokenSet t2).card :=
      Finset.card_le_card Finset.inter_subset_union
    have hne : (tokenSet t1 ∪ tokenSet t2).card ≠ 0 := by
      intro hc
      rw [Finset.card_eq_zero, Finset.union_eq_empty] at hc
      exact h ⟨by rw [hc.1]; simp, by rw [hc.2]; simp⟩
    have hpos : (0 : ℚ) < ((tokenSet t1 ∪ tokenSet t2).card : ℚ) := by
      exact_mod_cast Nat.pos_of_ne_zero hne
    constructor
    · positivity
    · rw [div_le_one hpos]
      exact_mod_cast hsub

theorem countPosMatches_le_left :
    ∀ a b : List Char, countPosMatches a b ≤ a.length
  | [], _ => by simp [countPosMatches]
  | _ :: _, [] => by simp [countPosMatches]
  | a :: as, b :: bs => by
    simp only [countPosMatches, List.length_cons]
    have := countPosMatches_le_left as bs
    split <;> omega

theorem fileName_unit (n1 n2 : String) :
    0 ≤ fileNameSimilarity n1 n2 ∧ fileNameSimilarity n1 n2 ≤ 1 := by
  simp only [fileNameSimilarity]
  split_ifs with h1 h2 h3
  · norm_num
  · norm_num
  · norm_num
  · have hcount : countPosMatches (cleanName n1) (cleanName n2) ≤
        max (cleanName n1).length (cleanName n2).length :=
      le_trans (countPosMatches_le_left _ _) (le_max_left _ _)
    have hpos : (0 : ℚ) <
        ((max (cleanName n1).length (cleanName n2).length : ℕ) : ℚ) :=
      Nat.cast_pos.mpr (Nat.pos_of_ne_zero h3)
    constructor
    · positivity
    · rw [div_le_one hpos]
      exact_mod_cast hcount

theorem jaccard_self {t : String} (h : tokenSet t ≠ ∅) :
    jaccardSimilarity t t = 1 := by
  simp only [jaccardSimilarity]
  rw [if_neg, Finset.inter_self, Finset.union_self, div_self]
  · have hc : (tokenSet t).card ≠ 0 := by
      simpa [Finset.card_eq_zero] using h
    exact_mod_cast hc
  · rintro ⟨h1, _⟩
    exact h (Finset.card_eq_zero.mp h1)

theorem fileName_self (n : String) : fileNameSimilarity n n = 1 := by
  simp only [fileNameSimilarity]
  simp

theorem findDuplicates_singleton (t n : String) (f : DupFile)
    (hsc : (1 / 2 : ℚ) ≤ compositeScore t n f) :
    findDuplicates t n [f] =
      [{ score := compositeScore t n f, matchedFile := { id := f.id, name := f.name },
         matchType := matchTypeOf (compositeScore t n f) }] := by
  simp only [findDuplicates, List.filterMap_cons, List.filterMap_nil, if_pos hsc]
  simp [List.insertionSort]

theorem findDuplicates_singleton_none (t n : String) (f : DupFile)
    (hsc : ¬(1 / 2 : ℚ) ≤ compositeScore t n f) :
    findDuplicates t n [f] = [] := by
  simp only [findDuplicates, List.filterMap_cons, List.filterMap_nil, if_neg hsc]
  simp [List.insertionSort]

/-! ## C3: threshold consistency and descending sort -/

/-- C3: every element of the list returned by `findDuplicates` has score
at least 1/2, its match type is exactly the threshold ladder of its score
(≥ 9/10 iff exact, in [7/10, 9/10) iff high, in [1/2, 7/10) iff medium),
and the list is sorted by descending score. -/
theorem C3_threshold_consistency (newFileText newFileName : String)
    (corpus : List DupFile) :
    (∀ r ∈ findDuplicates newFileText newFileName corpus,
      (1 / 2 : ℚ) ≤ r.score ∧
      (r.matchType = .exact ↔ (9 / 10 : ℚ) ≤ r.score) ∧
      (r.matchType = .high ↔ (7 / 10 : ℚ) ≤ r.score ∧ r.score < 9 / 10) ∧
      (r.matchType = .medium ↔ (1 / 2 : ℚ) ≤ r.score ∧ r.score < 7 / 10)) ∧
    (findDuplicates newFileText newFileName corpus).Sorted scoreGe := by
  constructor
  · intro r hr
    obtain ⟨file, _, hsc, rfl⟩ := mem_findDuplicates.mp hr
    exact ⟨hsc, matchTypeOf_exact_iff _, matchTypeOf_high_iff _,
      matchTypeOf_medium_iff _⟩
  · simp only [findDuplicates]
    exact List.sorted_insertionSort scoreGe _

/-- Witness for C3 at a concrete corpus containing an exact duplicate. -/
theorem C3_threshold_consistency_witness :
    (1 / 2 : ℚ) ≤
      (⟨1, ⟨"1", "x"⟩, MatchType.exact⟩ : SimilarityResult).score := by
  have hj : jaccardSimilarity "aaa bbb" "aaa bbb" = 1 := jaccard_self (by decide)
  have hcs : compositeScore "aaa bbb" "x" ⟨"1", "x", "aaa bbb"⟩ = 1 := by
    simp only [compositeScore]
    norm_num [hj, fileName_self]
  refine ((C3_threshold_consistency "aaa bbb" "x" [⟨"1", "x", "aaa bbb"⟩]).1
    ⟨1, ⟨"1", "x"⟩, MatchType.exact⟩ ?_).1
  rw [findDuplicates_singleton _ _ _ (by rw [hcs]; norm_num), hcs]
  norm_num [matchTypeOf]

/-! ## C4: scores in the unit interval; exact self-match (amended) -/

/-- C4 counterexample to the claim as stated: a document whose text has no
token longer than two characters scores only 3/10 against itself, so
comparing it against a corpus containing itself returns no result at all
(in particular none scoring 1). -/
theorem C4_self_counterexample :
    (⟨"1", "x", ""⟩ : DupFile) ∈ [(⟨"1", "x", ""⟩ : DupFile)] ∧
    findDuplicates "" "x" [⟨"1", "x", ""⟩] = [] := by
  constructor
  · simp
  · apply findDuplicates_singleton_none
    have hj : jaccardSimilarity "" "" = 0 := by
      simp only [jaccardSimilarity]
      rw [if_pos ⟨by decide, by decide⟩]
    have hcs : compositeScore "" "x" ⟨"1", "x", ""⟩ = 3 / 10 := by
      simp only [compositeScore]
      norm_num [hj, fileName_self]
    rw [hcs]
    norm_num

/-- C4 (amended): all composite scores computed by `findDuplicates` lie in
[0, 1]; and whenever the corpus contains the candidate document itself
(identical text and identical name) and the candidate text has at least
one token longer than two characters, the result list contains an entry
scoring exactly 1 with match type exact. -/
theorem C4_scores_unit_and_self :
    (∀ (newFileText newFileName : String) (file : DupFile),
      0 ≤ compositeScore newFileText newFileName file ∧
      compositeScore newFileText newFileName file ≤ 1) ∧
    (∀ (text name : String) (corpus : List DupFile) (file : DupFile),
      file ∈ corpus → file.extractedText = text → file.name = name →
      tokenSet text ≠ ∅ →
      ∃ r ∈ findDuplicates text name corpus,
        r.score = 1 ∧ r.matchType = MatchType.exact) := by
  constructor
  · intro t n f
    have hj := jaccard_unit t f.extractedText
    have hf := fileName_unit n f.name
    unfold compositeScore
    constructor <;> nlinarith [hj.1, hj.2, hf.1, hf.2]
  · intro text name corpus file hmem hte hn htok
    have hcs : compositeScore text name file = 1 := by
      unfold compositeScore
      rw [hte, hn, jaccard_self htok, fileName_self]
      norm_num
    refine ⟨_, mem_findDuplicates.mpr ⟨file, hmem, by rw [hcs]; norm_num, rfl⟩,
      ?_, ?_⟩
    · exact hcs
    · show matchTypeOf (compositeScore text name file) = MatchType.exact
      rw [matchTypeOf_exact_iff, hcs]
      norm_num

/-- Witness for C4 at a concrete self-duplicate corpus. -/
theorem C4_scores_unit_and_self_witness :
    (0 ≤ compositeScore "hello world" "doc.pdf" ⟨"1", "doc.pdf", "hello world"⟩ ∧
      compositeScore "hello world" "doc.pdf" ⟨"1", "doc.pdf", "hello world"⟩ ≤ 1) ∧
    ∃ r ∈ findDuplicates "hello world" "doc.pdf"
        [⟨"1", "doc.pdf", "hello world"⟩],
      r.score = 1 ∧ r.matchType = MatchType.exact :=
  ⟨C4_scores_unit_and_self.1 "hello world" "doc.pdf" _,
    C4_scores_unit_and_self.2 "hello world" "doc.pdf"
      [⟨"1", "doc.pdf", "hello world"⟩] ⟨"1", "doc.pdf", "hello world"⟩
      (by simp) rfl rfl (by decide)⟩

/-! ## C5: substring search correctness (amended to non-blank queries) -/

/-- C5 counterexample to the claim as stated: for the whitespace query
`" "`, `searchFiles` returns the whole corpus, including a document that
does not contain the query as a substring anywhere. -/
theorem C5_ws_counterexample :
    c5Doc ∈ searchFiles " " [c5Doc] ∧ ¬ searchMatchSpec " " c5Doc :=
  ⟨by decide, by simp only [searchMatchSpec]; decide⟩

/-- C5 (amended): for every query whose trimmed form is non-empty, a
document of the corpus is in `searchFiles(query, corpus)` iff the
lowercased query is a substring of its name, of its raw extracted text, of
some tag, or of some extracted-field value or key. -/
theorem C5_searchFiles_spec (query : String) (files : List StoredFile)
    (d : StoredFile) (hq : jsTrim query.data ≠ []) (hd : d ∈ files) :
    d ∈ searchFiles query files ↔ searchMatchSpec query d := by
  have hqne : query.data ≠ [] := by
    intro h0
    exact hq (by rw [h0]; rfl)
  have hlqne : (lowerStr query.data).isEmpty = false := by
    cases hqd : query.data with
    | nil => exact absurd hqd hqne
    | cons c t => simp [lowerStr]
  have hguard : ∀ t : String,
      containsSub (lowerStr t.data) (lowerStr query.data) = true →
      t.data.isEmpty = false := by
    intro t hc
    cases htd : t.data with
    | nil =>
      rw [htd] at hc
      rw [show containsSub (lowerStr []) (lowerStr query.data) =
        (lowerStr query.data).isEmpty from rfl] at hc
      rw [hlqne] at hc
      exact Bool.noConfusion hc
    | cons c ts => simp
  unfold searchFiles
  rw [if_neg (by simpa [List.isEmpty_iff] using hq), List.mem_filter]
  simp only [hd, true_and, searchFilesCond, searchMatchSpec, Bool.or_eq_true,
    Bool.and_eq_true, List.any_eq_true, Bool.not_eq_true']
  constructor
  · rintro (((h | ⟨_, h⟩) | h) | h)
    · exact Or.inl h
    · exact Or.inr (Or.inl h)
    · exact Or.inr (Or.inr (Or.inl h))
    · exact Or.inr (Or.inr (Or.inr h))
  · rintro (h | h | h | h)
    · exact Or.inl (Or.inl (Or.inl h))
    · exact Or.inl (Or.inl (Or.inr ⟨hguard _ h, h⟩))
    · exact Or.inl (Or.inr h)
    · exact Or.inr h

/-- Witness for C5 at a concrete query and document. -/
theorem C5_searchFiles_spec_witness :
    c5TaxDoc ∈ searchFiles "tax" [c5TaxDoc] ↔ searchMatchSpec "tax" c5TaxDoc :=
  C5_searchFiles_spec "tax" [c5TaxDoc] c5TaxDoc (by decide) (by simp)

/-! ## C6: the extraction example (amended: overlapping patterns double
both the date and the amount) -/

/-- C6 counterexample to the claim as stated: on the example text the
dates list has two entries (the `due` pattern and the generic `date`
pattern both match), not exactly one. -/
theorem C6_extract_counterexample :
    ¬((extractStructuredData c6Text).fields =
        [("invoiceNumber", "INV-2024-001")] ∧
      (extractStructuredData c6Text).dates.map (fun e => (e.type, e.date)) =
        [(DateType.due_date, "12/15/2024")] ∧
      (extractStructuredData c6Text).amounts.map (fun e => (e.type, e.amount)) =
        [(AmountType.total, some (1650 : ℚ))]) := by
  intro h
  have hlen : ((extractStructuredData c6Text).dates.map
      (fun e => (e.type, e.date))).length = 2 := by decide
  rw [h.2.1] at hlen
  simp at hlen

/-- C6 (amended): on the example text the extractor yields the invoice
number field, two date entries (due date and issue date, both reading
12/15/2024) and two amount entries (total and general, both 1650). -/
theorem C6_extract_example :
    (extractStructuredData c6Text).fields =
      [("invoiceNumber", "INV-2024-001")] ∧
    (extractStructuredData c6Text).dates.map (fun e => (e.type, e.date)) =
      [(DateType.due_date, "12/15/2024"), (DateType.issue_date, "12/15/2024")] ∧
    (extractStructuredData c6Text).amounts.map (fun e => (e.type, e.amount)) =
      [(AmountType.total, some (1650 : ℚ)),
       (AmountType.general, some (1650 : ℚ))] := by
  refine ⟨by decide, by decide, ?_⟩
  have h0 : (extractStructuredData c6Text).amounts.map
      (fun e => (e.type, e.amount)) =
      [(AmountType.total, jsParseFloat (stripCommas ("1,650.00".data))),
       (AmountType.general, jsParseFloat (stripCommas ("1,650.00".data)))] := rfl
  have hv : jsParseFloat (stripCommas ("1,650.00".data)) =
      some ((1 : ℚ) * (((1650 : ℕ) : ℚ) + ((0 : ℕ) : ℚ) / (10 : ℚ) ^ (2 : ℕ))) :=
    rfl
  rw [h0, hv]
  norm_num

/-! ## C7: the temporal-query scenario (code bug) -/

/-- C7: on the scenario corpus the temporal filter keeps all five
documents, because the `last month` predicate of the source only bounds
`createdAt` from below by the first day of the previous month, so
documents created this month pass as well; the tag filter also keeps all
five, the chain does not narrow the corpus, and the fallback returns the
plain substring search result, which is empty.  The claimed result (the
two last-month documents) is not returned. -/
theorem C7_last_month_eval :
    nlsFiltered "receipts from last month" c7Corpus c7Now = c7Corpus ∧
    naturalLanguageSearch "receipts from last month" c7Corpus c7Now = [] :=
  ⟨by decide, by decide⟩

/-! ## C9: every extracted amount parses to a valid number -/

theorem mem_mseq {m1 m2 : Matcher} {l : List Char} {p : List Char × List Char}
    (h : p ∈ mseq m1 m2 l) :
    ∃ a ∈ m1 l, ∃ b ∈ m2 a.2, p = (a.1 ++ b.1, b.2) := by
  simp only [mseq, List.mem_flatMap, List.mem_map] at h
  obtain ⟨a, ha, b, hb, he⟩ := h
  exact ⟨a, ha, b, hb, he.symm⟩

theorem mem_mcharPlus {p : Char → Bool} {l : List Char}
    {q : List Char × List Char} (h : q ∈ mcharPlus p l) :
    ∃ c t, q.1 = c :: t ∧ p c = true := by
  cases l with
  | nil => simp [mcharPlus, List.takeWhile] at h
  | cons c ts =>
    by_cases hc : p c = true
    · simp only [mcharPlus, List.takeWhile_cons_of_pos hc, List.length_cons,
        List.mem_map, List.mem_range] at h
      obtain ⟨k, hk, he⟩ := h
      have hpos : 1 ≤ (ts.takeWhile p).length + 1 - k := by omega
      obtain ⟨n, hn⟩ : ∃ n, (ts.takeWhile p).length + 1 - k = n + 1 :=
        ⟨(ts.takeWhile p).length - k, by omega⟩
      refine ⟨c, ts.take n, ?_, hc⟩
      rw [← he]
      simp [hn]
    · simp [mcharPlus, List.takeWhile_cons_of_neg hc] at h

theorem mem_mcap {pre cap post : Matcher} {l : List Char}
    {r : List Char × List Char × List Char} (h : r ∈ mcap pre cap post l) :
    ∃ a ∈ pre l, ∃ b ∈ cap a.2, ∃ c ∈ post b.2,
      r = (a.1 ++ b.1 ++ c.1, b.1, c.2) := by
  simp only [mcap, List.mem_flatMap, List.mem_map] at h
  obtain ⟨a, ha, b, hb, c, hc, he⟩ := h
  exact ⟨a, ha, b, hb, c, hc, he.symm⟩

theorem mnumToken_head_digit {l : List Char} {q : List Char × List Char}
    (h : q ∈ mnumToken l) :
    ∃ c t, q.1 = c :: t ∧ isDigitChar c = true := by
  rw [show mnumToken = mseq (mcharPlus isDigitChar)
    (mseq (mstar (mseq (mlit (",".data)) (mcharExact isDigitChar 3)))
      (mopt (mseq (mlit (".".data)) (mcharExact isDigitChar 2)))) from rfl] at h
  obtain ⟨a, ha, b, _, he⟩ := mem_mseq h
  obtain ⟨c, t, hct, hc⟩ := mem_mcharPlus ha
  refine ⟨c, t ++ b.1, ?_, hc⟩
  rw [he]
  simp [hct]

theorem execAll_mem
    {mc : List Char → List (List Char × List Char × List Char)} :
    ∀ {fuel : Nat} {l : List Char} {pr : List Char × List Char},
      pr ∈ execAll mc fuel l →
      ∃ l' rest, (pr.1, pr.2, rest) ∈ mc l' := by
  intro fuel
  induction fuel with
  | zero =>
    intro l pr h
    simp [execAll] at h
  | succ fuel ih =>
    intro l pr h
    simp only [execAll] at h
    cases hh : (mc l).head? with
    | some x =>
      rw [hh] at h
      rcases List.mem_cons.mp h with he | hrec
      · refine ⟨l, x.2.2, ?_⟩
        have hx : x ∈ mc l := List.mem_of_mem_head? (by rw [hh]; rfl)
        rw [he]
        simpa using hx
      · exact ih hrec
    | none =>
      rw [hh] at h
      cases l with
      | nil => simp at h
      | cons c t => exact ih h

theorem digit_head_parse (c : Char) (t : List Char)
    (hc : isDigitChar c = true) :
    (jsParseFloat (stripCommas (c :: t))).isSome = true := by
  have hcomma : ¬(c = ',') := by
    intro he
    subst he
    exact absurd hc (by decide)
  have hnotws : isWsChar c = false := by
    simp only [isDigitChar, Bool.and_eq_true, decide_eq_true_eq] at hc
    rw [Bool.eq_false_iff]
    intro hw
    simp only [isWsChar, Bool.or_eq_true, Bool.and_eq_true,
      decide_eq_true_eq] at hw
    omega
  have hneg : ¬(c = '-') := by
    intro he
    subst he
    exact absurd hc (by decide)
  have hplus : ¬(c = '+') := by
    intro he
    subst he
    exact absurd hc (by decide)
  have hstrip : stripCommas (c :: t) = c :: stripCommas t := by
    simp [stripCommas, hcomma]
  have hl1 : (c :: stripCommas t).dropWhile isWsChar = c :: stripCommas t := by
    rw [List.dropWhile_cons, hnotws]
    simp
  have hint : (c :: stripCommas t).takeWhile isDigitChar =
      c :: (stripCommas t).takeWhile isDigitChar :=
    List.takeWhile_cons_of_pos hc
  rw [hstrip]
  simp only [jsParseFloat, hl1, List.head?_cons]
  simp [hneg, hplus, hint]

/-- C9: for every input text, every amount entry produced by
`extractStructuredData` carries a valid parsed numeric value: the captured
token of an amount pattern always parses (`parseFloat` never yields `NaN`
on it), so no entry is ever dropped for being invalid and no error is
raised. -/
theorem C9_amounts_valid (text : String) :
    ∀ a ∈ (extractStructuredData text).amounts, a.amount.isSome = true := by
  intro a ha
  simp only [extractStructuredData, List.mem_flatMap, List.mem_map] at ha
  obtain ⟨pat, _, m, hm, he⟩ := ha
  obtain ⟨l', rest, hmem⟩ := execAll_mem hm
  obtain ⟨p1, _, p2, hp2, p3, _, heq⟩ := mem_mcap hmem
  obtain ⟨c, t, hct, hc⟩ := mnumToken_head_digit hp2
  have hm2 : m.2 = c :: t := by
    have h2 := congrArg (fun x => x.2.1) heq
    simpa using h2.trans hct
  rw [← he]
  show (jsParseFloat (stripCommas m.2)).isSome = true
  rw [hm2]
  exact digit_head_parse c t hc

/-- Witness for C9 at a concrete text with one amount. -/
theorem C9_amounts_valid_witness :
    (⟨AmountType.total, jsParseFloat (stripCommas ("5".data)), "USD",
        "total 5"⟩ : ExtractedAmount).amount.isSome = true := by
  apply C9_amounts_valid "total 5"
  rw [show (extractStructuredData "total 5").amounts =
    [⟨AmountType.total, jsParseFloat (stripCommas ("5".data)), "USD",
      "total 5"⟩] from rfl]
  simp
